import Mathlib

/-!
Verification of the marketing-copilot campaign pipeline.

Shallow embedding of:
* `src/lib/ai/prompt-parser.ts` — the zod `campaignSchema` and
  `PromptParser.generateResponse`;
* `src/lib/ai/content-generator.ts` — JSON extraction (`content.match` of the
  greedy brace regex), `JSON.parse`, per-channel required-field checks and the
  channel-specific error mapping;
* `src/app/api/campaign/route.ts` — the `POST` orchestrator (clarification
  short-circuit, per-channel fan-out with try/catch isolation, campaign
  creation), the launch `POST` status update and the `PATCH` update.

External I/O (the LLM invocation, Prisma persistence, Sentry reporting) is
modelled by oracles / event traces; everything the route and generator compute
from those results is embedded faithfully.
-/

namespace Copilot

/-- JSON values as produced by JavaScript `JSON.parse`.  Numbers are kept
exactly as mantissa `m` times `10 ^ e` (JSON number syntax is decimal), to
avoid floating-point semantics; no claim depends on float rounding. -/
inductive Json where
  | null
  | bool (b : Bool)
  | num (m : Int) (e : Int)
  | str (s : String)
  | arr (xs : List Json)
  | obj (fields : List (String × Json))
deriving Repr

/-- First-match lookup of a key in an object's field list.  Objects built by
the embedded `JSON.parse` have unique keys (last duplicate wins, as in JS), so
first-match lookup agrees with JS property access. -/
def lookupField (m : List (String × Json)) (k : String) : Option Json :=
  match m with
  | [] => none
  | (k', v) :: rest => if k' = k then some v else lookupField rest k

/-- JS object property assignment `o[k] = v`: replaces the value in place when
the key exists (keeping its insertion position), otherwise appends. -/
def setField (m : List (String × Json)) (k : String) (v : Json) : List (String × Json) :=
  match m with
  | [] => [(k, v)]
  | (k', v') :: rest => if k' = k then (k, v) :: rest else (k', v') :: setField rest k v

/-- JS property access `j.k` (non-objects have no own properties here). -/
def Json.getField (j : Json) (k : String) : Option Json :=
  match j with
  | .obj fields => lookupField fields k
  | _ => none

/-- JavaScript truthiness of a JSON value (`NaN` cannot arise from
`JSON.parse`; `-0` has mantissa `0`). -/
def Json.truthy : Json → Bool
  | .null => false
  | .bool b => b
  | .num m _ => m ≠ 0
  | .str s => s ≠ ""
  | .arr _ => true
  | .obj _ => true

/-- Truthiness of `j.k` — `undefined` (absent property) is falsy. -/
def truthyField (j : Json) (k : String) : Bool :=
  match j.getField k with
  | none => false
  | some v => v.truthy

/-! ## The campaign-intent data model (`prompt-parser.ts`, `campaignSchema`) -/

/-- The `channels` enum of `campaignSchema`. -/
inductive Channel where
  | email
  | social
  | ppc
  | sms
deriving DecidableEq, Repr, Fintype

/-- The enum literal for a channel, as it appears in the zod schema. -/
def Channel.name : Channel → String
  | .email => "email"
  | .social => "social"
  | .ppc => "ppc"
  | .sms => "sms"

structure ContentSpec where
  tone : Option String
  keyMessage : String
  callToAction : Option String
deriving DecidableEq, Repr

structure AudienceCriteria where
  demographics : Option String
  interests : Option String
  location : Option String
deriving DecidableEq, Repr

structure Schedule where
  startDate : Option String
  endDate : Option String
deriving DecidableEq, Repr

/-- `CampaignIntent = z.infer<typeof campaignSchema>`.  A JSON number is kept
as a mantissa/exponent pair. -/
structure CampaignIntent where
  goal : String
  channels : List Channel
  contentSpec : ContentSpec
  audienceCriteria : AudienceCriteria
  budget : Option (Int × Int)
  schedule : Option Schedule
  needsClarification : Bool
  clarificationQuestions : Option (List String)
deriving DecidableEq, Repr

/-! ## The zod validation of `campaignSchema`

`z.object` requires an object and each listed field to validate; `.optional()`
accepts an absent field (JS `undefined`) but not `null`; the `channels` enum
rejects any literal outside the four recognised ones. -/

def asStr : Json → Option String
  | .str s => some s
  | _ => none

def asBool : Json → Option Bool
  | .bool b => some b
  | _ => none

def asNum : Json → Option (Int × Int)
  | .num m e => some (m, e)
  | _ => none

def asObj : Json → Option (List (String × Json))
  | .obj fields => some fields
  | _ => none

/-- Validate every element of a list, failing if any element fails
(`z.array(inner)` semantics). -/
def mapOption (f : α → Option β) : List α → Option (List β)
  | [] => some []
  | x :: xs =>
    match f x with
    | none => none
    | some y => (mapOption f xs).map (y :: ·)

/-- `z.enum(["email", "social", "ppc", "sms"])`. -/
def parseChannel : Json → Option Channel
  | .str "email" => some .email
  | .str "social" => some .social
  | .str "ppc" => some .ppc
  | .str "sms" => some .sms
  | _ => none

def parseChannels : Json → Option (List Channel)
  | .arr xs => mapOption parseChannel xs
  | _ => none

/-- A required field: must be present and validate. -/
def reqField (fields : List (String × Json)) (k : String) (p : Json → Option α) : Option α :=
  (lookupField fields k).bind p

/-- An `.optional()` field: absent is fine, present must validate. -/
def optField (fields : List (String × Json)) (k : String) (p : Json → Option α) :
    Option (Option α) :=
  match lookupField fields k with
  | none => some none
  | some v => (p v).map some

def parseContentSpec (j : Json) : Option ContentSpec := do
  let fields ← asObj j
  let tone ← optField fields "tone" asStr
  let keyMessage ← reqField fields "keyMessage" asStr
  let callToAction ← optField fields "callToAction" asStr
  pure ⟨tone, keyMessage, callToAction⟩

def parseAudienceCriteria (j : Json) : Option AudienceCriteria := do
  let fields ← asObj j
  let demographics ← optField fields "demographics" asStr
  let interests ← optField fields "interests" asStr
  let location ← optField fields "location" asStr
  pure ⟨demographics, interests, location⟩

def parseSchedule (j : Json) : Option Schedule := do
  let fields ← asObj j
  let startDate ← optField fields "startDate" asStr
  let endDate ← optField fields "endDate" asStr
  pure ⟨startDate, endDate⟩

def parseStringArray : Json → Option (List String)
  | .arr xs => mapOption asStr xs
  | _ => none

/-- `campaignSchema.parse` (the schema-validation step run on the structured
LLM output by `StructuredOutputParser`): `none` models a thrown
`ZodError`. -/
def validateCampaign (j : Json) : Option CampaignIntent := do
  let fields ← asObj j
  let goal ← reqField fields "goal" asStr
  let channels ← reqField fields "channels" parseChannels
  let contentSpec ← reqField fields "contentSpec" parseContentSpec
  let audienceCriteria ← reqField fields "audienceCriteria" parseAudienceCriteria
  let budget ← optField fields "budget" asNum
  let schedule ← optField fields "schedule" parseSchedule
  let needsClarification ← reqField fields "needsClarification" asBool
  let clarificationQuestions ← optField fields "clarificationQuestions" parseStringArray
  pure ⟨goal, channels, contentSpec, audienceCriteria, budget, schedule,
        needsClarification, clarificationQuestions⟩

/-! ## JavaScript `JSON.parse` (used by the content generator on the matched
brace span).  Fuelled recursive descent over the JSON grammar; `none` models a
thrown `SyntaxError`.  Duplicate object keys follow JS semantics (last value
wins, first insertion position kept) via `setField`. -/

def isJsonWs (c : Char) : Bool :=
  c == ' ' || c == '\t' || c == '\n' || c == '\r'

def skipWs (s : List Char) : List Char := s.dropWhile isJsonWs

def hexVal (c : Char) : Option Nat :=
  if '0' ≤ c ∧ c ≤ '9' then some (c.toNat - '0'.toNat)
  else if 'a' ≤ c ∧ c ≤ 'f' then some (c.toNat - 'a'.toNat + 10)
  else if 'A' ≤ c ∧ c ≤ 'F' then some (c.toNat - 'A'.toNat + 10)
  else none

/-- Parse the body of a JSON string literal (after the opening quote),
accumulating characters in reverse.  Unknown escapes and raw control
characters are syntax errors, as in `JSON.parse`. -/
def parseStringBody : List Char → List Char → Option (String × List Char)
  | [], _ => none
  | '"' :: rest, acc => some (String.mk acc.reverse, rest)
  | '\\' :: '"' :: rest, acc => parseStringBody rest ('"' :: acc)
  | '\\' :: '\\' :: rest, acc => parseStringBody rest ('\\' :: acc)
  | '\\' :: '/' :: rest, acc => parseStringBody rest ('/' :: acc)
  | '\\' :: 'b' :: rest, acc => parseStringBody rest ('\x08' :: acc)
  | '\\' :: 'f' :: rest, acc => parseStringBody rest ('\x0c' :: acc)
  | '\\' :: 'n' :: rest, acc => parseStringBody rest ('\n' :: acc)
  | '\\' :: 'r' :: rest, acc => parseStringBody rest ('\x0d' :: acc)
  | '\\' :: 't' :: rest, acc => parseStringBody rest ('\t' :: acc)
  | '\\' :: 'u' :: h1 :: h2 :: h3 :: h4 :: rest, acc =>
    (match hexVal h1, hexVal h2, hexVal h3, hexVal h4 with
     | some a, some b, some c, some d =>
       parseStringBody rest (Char.ofNat (((a * 16 + b) * 16 + c) * 16 + d) :: acc)
     | _, _, _, _ => none)
  | '\\' :: _, _ => none
  | c :: rest, acc =>
    if c.toNat < 32 then none else parseStringBody rest (c :: acc)

def takeDigits (s : List Char) : List Char × List Char :=
  (s.takeWhile Char.isDigit, s.dropWhile Char.isDigit)

def digitsToNat (ds : List Char) : Nat :=
  ds.foldl (fun acc c => acc * 10 + (c.toNat - '0'.toNat)) 0

/-- The exponent part of a JSON number, positioned just after `e`/`E`. -/
def parseExpPart (s : List Char) : Option (Int × List Char) :=
  let signAndRest : Int × List Char :=
    match s with
    | '+' :: r => (1, r)
    | '-' :: r => (-1, r)
    | _ => (1, s)
  let (ds, s2) := takeDigits signAndRest.2
  if ds.isEmpty then none else some (signAndRest.1 * (digitsToNat ds : Int), s2)

/-- A JSON number literal: `-? (0 | [1-9][0-9]*) (. [0-9]+)? ([eE][+-]?[0-9]+)?`. -/
def parseNumber (s : List Char) : Option (Json × List Char) :=
  let signAndRest : Int × List Char :=
    match s with
    | '-' :: r => (-1, r)
    | _ => (1, s)
  let (ids, s2) := takeDigits signAndRest.2
  if ids.isEmpty then none
  else if 2 ≤ ids.length ∧ ids.head? = some '0' then none
  else
    let fracStep : Option (List Char × List Char) :=
      match s2 with
      | '.' :: r =>
        let (ds, r2) := takeDigits r
        if ds.isEmpty then none else some (ds, r2)
      | _ => some ([], s2)
    match fracStep with
    | none => none
    | some (fds, s3) =>
      let expStep : Option (Int × List Char) :=
        match s3 with
        | 'e' :: r => parseExpPart r
        | 'E' :: r => parseExpPart r
        | _ => some (0, s3)
      match expStep with
      | none => none
      | some (ex, s4) =>
        some (.num (signAndRest.1 * (digitsToNat (ids ++ fds) : Int)) (ex - fds.length), s4)

mutual

def parseVal : Nat → List Char → Option (Json × List Char)
  | 0, _ => none
  | fuel + 1, s =>
    match skipWs s with
    | '{' :: r =>
      (match skipWs r with
       | '}' :: r2 => some (.obj [], r2)
       | _ => parseMembers fuel (skipWs r) [])
    | '[' :: r =>
      (match skipWs r with
       | ']' :: r2 => some (.arr [], r2)
       | _ => parseElems fuel (skipWs r) [])
    | '"' :: r => (parseStringBody r []).map (fun p => (.str p.1, p.2))
    | 't' :: 'r' :: 'u' :: 'e' :: r => some (.bool true, r)
    | 'f' :: 'a' :: 'l' :: 's' :: 'e' :: r => some (.bool false, r)
    | 'n' :: 'u' :: 'l' :: 'l' :: r => some (.null, r)
    | s2 => parseNumber s2

def parseMembers : Nat → List Char → List (String × Json) → Option (Json × List Char)
  | 0, _, _ => none
  | fuel + 1, s, acc =>
    match skipWs s with
    | '"' :: r =>
      (match parseStringBody r [] with
       | none => none
       | some (key, r2) =>
         match skipWs r2 with
         | ':' :: r3 =>
           (match parseVal fuel r3 with
            | none => none
            | some (v, r4) =>
              match skipWs r4 with
              | ',' :: r5 => parseMembers fuel r5 (setField acc key v)
              | '}' :: r5 => some (.obj (setField acc key v), r5)
              | _ => none)
         | _ => none)
    | _ => none

def parseElems : Nat → List Char → List Json → Option (Json × List Char)
  | 0, _, _ => none
  | fuel + 1, s, acc =>
    match parseVal fuel s with
    | none => none
    | some (v, r) =>
      match skipWs r with
      | ',' :: r2 => parseElems fuel r2 (acc ++ [v])
      | ']' :: r2 => some (.arr (acc ++ [v]), r2)
      | _ => none

end

/-- `JSON.parse`: one value, then only trailing whitespace. -/
def parseJson (s : List Char) : Option Json :=
  match parseVal (s.length + 1) s with
  | some (v, rest) => if (skipWs rest).isEmpty then some v else none
  | none => none

/-! ## JSON extraction from the raw LLM response (`content.match(...)`)

The source regex is greedy: it matches from the first opening brace to the
last closing brace of the whole response. -/

/-- `content.match` of the greedy brace regex: the span from the first opening
brace to the last closing brace at or after it, or `none` when the regex does
not match. -/
def jsonMatch (s : List Char) : Option (List Char) :=
  let t := s.dropWhile (fun c => c != '{')
  let w := t.reverse.dropWhile (fun c2 => c2 != '}')
  if w.isEmpty then none else some w.reverse

/-- The shared extraction step of all four generators: regex match, then
`JSON.parse` of the matched span.  The `SyntaxError` message is
engine-specific; only its presence matters (the catch block replaces it). -/
def extractJson (s : List Char) : Except String Json :=
  match jsonMatch s with
  | none => .error "No JSON found in AI response"
  | some m =>
    match parseJson m with
    | none => .error "SyntaxError: invalid JSON"
    | some v => .ok v

/-! ## Content generator (`content-generator.ts`)

The LLM invocation is external I/O, so each generator is a function of the
raw response text (the prompt templates only shape that external call).  Each
generator runs the shared extraction, checks its channel-specific required
fields by JS truthiness, and maps every failure — in the source, inside the
catch block after Sentry reporting — to the channel-specific user-facing
message. -/

/-- Pad a digit string with leading zeros to width `n`. -/
def padZeros (s : String) (n : Nat) : String :=
  if s.length < n then String.mk (List.replicate (n - s.length) '0') ++ s else s

/-- Decimal rendering of a mantissa/exponent number; approximates JS
`Number.prototype.toString` (which trims trailing zeros) for the template
strings.  No claim depends on this rendering. -/
def renderNum (m : Int) (e : Int) : String :=
  if 0 ≤ e then toString (m * 10 ^ e.toNat)
  else
    let d := e.natAbs
    let a := m.natAbs
    (if m < 0 then "-" else "") ++ toString (a / 10 ^ d) ++ "." ++
      padZeros (toString (a % 10 ^ d)) d

/-- JS string coercion of an array element inside `Array.prototype.join`
(`null` and `undefined` join as the empty string).  Nested arrays would join
recursively in JS; approximated (the pipeline never produces them). -/
def joinElem : Json → String
  | .null => ""
  | .bool b => if b then "true" else "false"
  | .str s => s
  | .num m e => renderNum m e
  | .arr _ => ""
  | .obj _ => "[object Object]"

def emailFailureMsg : String := "Failed to generate email content. Please try again."
def socialFailureMsg : String := "Failed to generate social content. Please try again."
def ppcFailureMsg : String := "Failed to generate PPC content. Please try again."
def smsFailureMsg : String := "Failed to generate SMS content. Please try again."

/-- Body of the `try` block of `generateEmailContent`. -/
def emailContentInner (response : List Char) : Except String Json := do
  let parsed ← extractJson response
  if !(truthyField parsed "subject") || !(truthyField parsed "body") then
    throw "Missing required fields in AI response"
  else
    pure parsed

def generateEmailContent (response : List Char) : Except String Json :=
  match emailContentInner response with
  | .ok v => .ok v
  | .error _ => .error emailFailureMsg

/-- Body of the `try` block of `generateSocialContent`: requires a truthy
`body`, then builds the returned object from `body`, `cta` and the
space-joined `hashtags` (optional chaining: absent or `null` hashtags give
the empty string; any other non-array value throws a `TypeError`). -/
def socialContentInner (response : List Char) : Except String Json := do
  let parsed ← extractJson response
  if !(truthyField parsed "body") then
    throw "Missing required fields in AI response"
  else
    let descr ← (match parsed.getField "hashtags" with
      | none => pure ""
      | some .null => pure ""
      | some (.arr xs) => pure (String.intercalate " " (xs.map joinElem))
      | some _ => throw "TypeError: join is not a function" : Except String String)
    let body := (parsed.getField "body").getD .null
    pure (.obj (("body", body) ::
      ((match parsed.getField "cta" with
        | some c => [("cta", c)]
        | none => []) ++ [("description", .str descr)])))

/-- `generateSocialContent` for one platform; the platform argument only
selects prompt hints for the external LLM call, so the response handling is
platform-independent. -/
def generateSocialContent (_platform : String) (response : List Char) : Except String Json :=
  match socialContentInner response with
  | .ok v => .ok v
  | .error _ => .error socialFailureMsg

/-- Body of the `try` block of `generatePPCContent`. -/
def ppcContentInner (response : List Char) : Except String Json := do
  let parsed ← extractJson response
  if !(truthyField parsed "headline") || !(truthyField parsed "description") then
    throw "Missing required fields in AI response"
  else
    pure parsed

def generatePPCContent (response : List Char) : Except String Json :=
  match ppcContentInner response with
  | .ok v => .ok v
  | .error _ => .error ppcFailureMsg

/-- Body of the `try` block of `generateSMSContent`. -/
def smsContentInner (response : List Char) : Except String Json := do
  let parsed ← extractJson response
  if !(truthyField parsed "body") then
    throw "Missing required fields in AI response"
  else
    pure parsed

def generateSMSContent (response : List Char) : Except String Json :=
  match smsContentInner response with
  | .ok v => .ok v
  | .error _ => .error smsFailureMsg

/-! ## `PromptParser.generateResponse` (pure string templating) -/

/-- The clarification template: the questions verbatim, numbered from 1, one
per line, wrapped in the fixed intro and outro. -/
def clarificationRendering (qs : List String) : String :=
  "I'd love to help you create this campaign! To get started, I need a bit more information:\n\n" ++
  String.intercalate "\n" (qs.enum.map (fun p => toString (p.1 + 1) ++ ". " ++ p.2)) ++
  "\n\nPlease provide these details so I can create the perfect campaign for you."

/-- `intent.budget ? \x60 with a budget of $...\x60 : ""` — a zero budget is
falsy in JS, so it renders no budget text. -/
def budgetText : Option (Int × Int) → String
  | none => ""
  | some (m, e) => if m = 0 then "" else " with a budget of $" ++ renderNum m e

def confirmationMessage (intent : CampaignIntent) : String :=
  "Perfect! I'm creating a " ++
  String.intercalate ", " (intent.channels.map Channel.name) ++
  " campaign" ++ budgetText intent.budget ++ " to " ++ intent.goal ++
  ".\n\nKey Message: " ++ intent.contentSpec.keyMessage ++
  "\n\nTarget Audience: " ++
  (match intent.audienceCriteria.demographics with
   | some s => if s = "" then "General audience" else s
   | none => "General audience") ++
  "\n\nI'll now generate the campaign content and set everything up. Would you like to review the content before we launch?"

/-- `PromptParser.generateResponse`: the clarification branch fires only when
`needsClarification` is true AND `clarificationQuestions` is truthy (present —
an empty array is truthy in JS); otherwise the confirmation template runs. -/
def generateResponse (intent : CampaignIntent) : String :=
  match intent.needsClarification, intent.clarificationQuestions with
  | true, some qs => clarificationRendering qs
  | _, _ => confirmationMessage intent

/-! ## The campaign `POST` orchestrator (`app/api/campaign/route.ts`)

Each generator invocation is external I/O, so the fan-out takes an oracle
`gen : GenCall → Except String Json` giving each call's outcome (an `error`
models a thrown exception).  The route's side effects — conversation message
pushes, the campaign row insert — and the generator invocations themselves are
recorded in an event trace, in the source's execution order. -/

/-- One generator invocation of the fan-out loop.  `social` performs the
facebook and the instagram invocation inside one loop iteration. -/
inductive GenCall where
  | emailCall
  | facebookCall
  | instagramCall
  | ppcCall
  | smsCall
deriving DecidableEq, Repr, Fintype

/-- The `generatedContent` key a successful call is assigned to. -/
def GenCall.key : GenCall → String
  | .emailCall => "email"
  | .facebookCall => "facebook"
  | .instagramCall => "instagram"
  | .ppcCall => "ppc"
  | .smsCall => "sms"

/-- The generator invocations a channel's branch performs, in order. -/
def channelCalls : Channel → List GenCall
  | .email => [.emailCall]
  | .social => [.facebookCall, .instagramCall]
  | .ppc => [.ppcCall]
  | .sms => [.smsCall]

inductive Event where
  | parseIntent
  | appendUserMessage (content : String)
  | appendAssistantMessage (content : String)
  | generatorCall (call : GenCall)
  | createCampaign (status : String)
deriving DecidableEq, Repr

/-- The warning pushed by the fan-out catch block:
`Failed to generate $channel content`. -/
def channelErrorMsg (c : Channel) : String :=
  "Failed to generate " ++ c.name ++ " content"

structure FanOutState where
  content : List (String × Json)
  errors : List String
  events : List Event
deriving Repr

/-- One iteration of the fan-out loop: the whole channel branch runs inside a
single `try`, whose catch pushes one warning.  For `social`, the facebook
result is assigned before the instagram invocation starts, so an instagram
failure keeps the facebook entry while a facebook failure skips the instagram
invocation entirely. -/
def runChannel (gen : GenCall → Except String Json) (st : FanOutState) (c : Channel) :
    FanOutState :=
  match c with
  | .email =>
    (match gen .emailCall with
     | .ok v => ⟨setField st.content "email" v, st.errors,
                 st.events ++ [.generatorCall .emailCall]⟩
     | .error _ => ⟨st.content, st.errors ++ [channelErrorMsg .email],
                    st.events ++ [.generatorCall .emailCall]⟩)
  | .social =>
    (match gen .facebookCall with
     | .error _ => ⟨st.content, st.errors ++ [channelErrorMsg .social],
                    st.events ++ [.generatorCall .facebookCall]⟩
     | .ok fv =>
       match gen .instagramCall with
       | .error _ => ⟨setField st.content "facebook" fv,
                      st.errors ++ [channelErrorMsg .social],
                      st.events ++ [.generatorCall .facebookCall,
                                    .generatorCall .instagramCall]⟩
       | .ok iv => ⟨setField (setField st.content "facebook" fv) "instagram" iv,
                    st.errors,
                    st.events ++ [.generatorCall .facebookCall,
                                  .generatorCall .instagramCall]⟩)
  | .ppc =>
    (match gen .ppcCall with
     | .ok v => ⟨setField st.content "ppc" v, st.errors,
                 st.events ++ [.generatorCall .ppcCall]⟩
     | .error _ => ⟨st.content, st.errors ++ [channelErrorMsg .ppc],
                    st.events ++ [.generatorCall .ppcCall]⟩)
  | .sms =>
    (match gen .smsCall with
     | .ok v => ⟨setField st.content "sms" v, st.errors,
                 st.events ++ [.generatorCall .smsCall]⟩
     | .error _ => ⟨st.content, st.errors ++ [channelErrorMsg .sms],
                    st.events ++ [.generatorCall .smsCall]⟩)

/-- The whole fan-out loop over `intent.channels`. -/
def fanOut (gen : GenCall → Except String Json) (channels : List Channel) : FanOutState :=
  channels.foldl (runChannel gen) ⟨[], [], []⟩

inductive OrchestrateResult where
  | clarification (message : String)
  | apiError (message : String)
  | campaign (content : List (String × Json)) (warnings : List String) (message : String)
deriving Repr

def readyMessage (channels : List Channel) : String :=
  "✨ Your campaign is ready! I've generated content for " ++
  String.intercalate ", " (channels.map Channel.name) ++
  ". Review the preview and let me know if you'd like any changes."

/-- The campaign `POST` handler from intent parsing onward.  The source
parses the intent first, then pushes the user's raw prompt onto the
conversation, then branches: clarification short-circuit, or fan-out followed
by the empty-content check, campaign creation in status `ready` and the
assistant confirmation push. -/
def orchestrate (gen : GenCall → Except String Json) (intent : CampaignIntent)
    (prompt : String) : OrchestrateResult × List Event :=
  if intent.needsClarification then
    let response := generateResponse intent
    (.clarification response,
     [.parseIntent, .appendUserMessage prompt, .appendAssistantMessage response])
  else
    let st := fanOut gen intent.channels
    if st.content.isEmpty then
      (.apiError "Failed to generate content for any channel",
       [.parseIntent, .appendUserMessage prompt] ++ st.events)
    else
      let msg := readyMessage intent.channels
      (.campaign st.content st.errors msg,
       [.parseIntent, .appendUserMessage prompt] ++ st.events ++
         [.createCampaign "ready", .appendAssistantMessage msg])

/-! ## Campaign records, the launch `POST` and the `PATCH` update -/

structure Campaign where
  goal : String
  channels : List Channel
  content : List (String × Json)
  audience : AudienceCriteria
  budget : Option (Int × Int)
  schedule : Option Schedule
  status : String
deriving Repr

/-- The launch `POST`: rejects already-launched campaigns, runs the launch
loop over `channels || campaign.channels` with each iteration's outcome given
by the oracle `ok` (integration lookup, content check and the external API
call are collapsed into it; `queued` counts as success in the source), errors
when zero iterations succeeded, and otherwise updates the status to
`launched` or `partially_launched`. -/
def launch (c : Campaign) (requested : Option (List Channel)) (ok : Nat → Bool) :
    Except String Campaign :=
  if c.status = "launched" then .error "Campaign already launched"
  else
    let channelsToLaunch := requested.getD c.channels
    let successCount := (List.range channelsToLaunch.length).countP ok
    if successCount = 0 then .error "Failed to launch campaign on any channel"
    else
      .ok { c with status :=
              if successCount = channelsToLaunch.length then "launched"
              else "partially_launched" }

/-- The fields of `updateCampaignSchema.updates` relevant to the lifecycle
(`content`/`audience`/`schedule` are free-form records in the source). -/
structure CampaignUpdates where
  goal : Option String
  channels : Option (List Channel)
  budget : Option (Int × Int)
  status : Option String
deriving Repr

def statusLiterals : List String := ["draft", "ready", "launched", "completed", "paused"]

/-- The `updateCampaignSchema` checks on the update payload: the status enum
and `z.number().positive()` for the budget. -/
def validUpdates (u : CampaignUpdates) : Bool :=
  (match u.status with
   | some s => statusLiterals.contains s
   | none => true) &&
  (match u.budget with
   | some b => decide (0 < b.1)
   | none => true)

/-- The `PATCH` handler on a found campaign: validate the update payload,
then overwrite exactly the provided fields (`...updates` spread).  It never
inspects the current status. -/
def patchCampaign (c : Campaign) (u : CampaignUpdates) : Option Campaign :=
  if validUpdates u then
    some { c with
           goal := u.goal.getD c.goal
           channels := u.channels.getD c.channels
           budget := match u.budget with
                     | some b => some b
                     | none => c.budget
           status := u.status.getD c.status }
  else none

/-! ## Basic lemmas about the association-list and validation helpers -/

theorem lookupField_setField_self (m : List (String × Json)) (k : String) (v : Json) :
    lookupField (setField m k v) k = some v := by
  induction m with
  | nil => simp [setField, lookupField]
  | cons p rest ih =>
    by_cases h : p.1 = k
    · simp [setField, lookupField, h]
    · simp [setField, lookupField, h, ih]

theorem lookupField_setField_ne (m : List (String × Json)) {k k' : String} (v : Json)
    (h : k' ≠ k) : lookupField (setField m k v) k' = lookupField m k' := by
  have hne : k ≠ k' := Ne.symm h
  induction m with
  | nil => simp [setField, lookupField, hne]
  | cons p rest ih =>
    obtain ⟨pk, pv⟩ := p
    by_cases hp : pk = k
    · subst hp
      simp [setField, lookupField, hne]
    · simp only [setField, hp, if_false, lookupField, ih]

theorem ne_nil_of_lookupField {m : List (String × Json)} {k : String} {v : Json}
    (h : lookupField m k = some v) : m ≠ [] := by
  cases m with
  | nil => simp [lookupField] at h
  | cons p rest => simp

theorem mapOption_mem {f : α → Option β} :
    ∀ {l : List α} {l' : List β}, mapOption f l = some l' → ∀ x ∈ l, ∃ y, f x = some y := by
  intro l
  induction l with
  | nil => simp
  | cons a t ih =>
    intro l' h x hx
    unfold mapOption at h
    cases hfa : f a with
    | none => rw [hfa] at h; exact absurd h (by simp)
    | some y =>
      rw [hfa] at h
      rcases Option.map_eq_some'.mp h with ⟨t', ht', _⟩
      rcases List.mem_cons.mp hx with rfl | hxt
      · exact ⟨y, hfa⟩
      · exact ih ht' x hxt

theorem parseChannel_shape {x : Json} {c : Channel} (h : parseChannel x = some c) :
    x = .str c.name := by
  unfold parseChannel at h
  split at h <;>
    first
      | (injection h with h2; subst h2; rfl)
      | exact Option.noConfusion h

/-! ## Lemmas about the greedy brace match -/

/-- The response contains a brace span: some opening brace with a closing
brace somewhere after it. -/
def hasBraceSpan (s : List Char) : Prop :=
  ∃ u m q, s = u ++ '{' :: m ++ '}' :: q

theorem dropWhile_append_all {p : Char → Bool} {l1 l2 : List Char}
    (h : ∀ x ∈ l1, p x = true) : (l1 ++ l2).dropWhile p = l2.dropWhile p := by
  induction l1 with
  | nil => rfl
  | cons a t ih =>
    have ha : p a = true := h a (List.mem_cons_self a t)
    simp only [List.cons_append, List.dropWhile_cons, ha, if_true]
    exact ih (fun x hx => h x (List.mem_cons_of_mem a hx))

theorem dropWhile_cons_neg {p : Char → Bool} {a : Char} {l : List Char}
    (h : p a = false) : (a :: l).dropWhile p = a :: l := by
  simp [List.dropWhile_cons, h]

theorem dropWhile_head_false {p : Char → Bool} :
    ∀ {l t : List Char} {a : Char}, l.dropWhile p = a :: t → p a = false := by
  intro l
  induction l with
  | nil => intro t a h; simp [List.dropWhile] at h
  | cons b r ih =>
    intro t a h
    by_cases hb : p b = true
    · rw [List.dropWhile_cons, if_pos hb] at h
      exact ih h
    · rw [List.dropWhile_cons, if_neg hb] at h
      cases h
      exact eq_false_of_ne_true hb

theorem dropWhile_mem {p : Char → Bool} :
    ∀ {l : List Char} {x : Char}, x ∈ l.dropWhile p → x ∈ l := by
  intro l
  induction l with
  | nil => intro x h; simp [List.dropWhile] at h
  | cons b r ih =>
    intro x h
    by_cases hb : p b = true
    · rw [List.dropWhile_cons, if_pos hb] at h
      exact List.mem_cons_of_mem b (ih h)
    · rw [List.dropWhile_cons, if_neg hb] at h
      exact h

theorem dropWhile_ne_nil_of_mem {p : Char → Bool} {x : Char} {l : List Char}
    (hx : x ∈ l) (hpx : p x = false) : l.dropWhile p ≠ [] := by
  intro hnil
  have hsplit := List.takeWhile_append_dropWhile p l
  rw [hnil, List.append_nil] at hsplit
  rw [← hsplit] at hx
  have := List.mem_takeWhile_imp hx
  rw [hpx] at this
  exact Bool.noConfusion this

/-- If the greedy brace regex matches, the string has a brace span. -/
theorem hasBraceSpan_of_jsonMatch {s r : List Char} (h : jsonMatch s = some r) :
    hasBraceSpan s := by
  unfold jsonMatch at h
  simp only at h
  cases hw : (s.dropWhile (fun c => c != '{')).reverse.dropWhile (fun c2 => c2 != '}') with
  | nil => rw [hw] at h; exact Option.noConfusion h
  | cons d w' =>
    have hd : d = '}' := by simpa using dropWhile_head_false hw
    subst hd
    -- the closing brace is somewhere in the tail after the first opening brace
    have hmem0 : ('}' : Char) ∈
        (s.dropWhile (fun c => c != '{')).reverse.dropWhile (fun c2 => c2 != '}') := by
      rw [hw]
      exact List.mem_cons_self _ _
    have hmem : ('}' : Char) ∈ (s.dropWhile (fun c => c != '{')).reverse :=
      dropWhile_mem hmem0
    rw [List.mem_reverse] at hmem
    cases ht : s.dropWhile (fun c => c != '{') with
    | nil => rw [ht] at hmem; exact absurd hmem (by simp)
    | cons c t' =>
      have hc : c = '{' := by simpa using dropWhile_head_false ht
      subst hc
      rw [ht] at hmem
      have hmem' : ('}' : Char) ∈ t' := by
        rcases List.mem_cons.mp hmem with h1 | h1
        · exact absurd h1 (by decide)
        · exact h1
      rcases List.append_of_mem hmem' with ⟨m, q, hmq⟩
      refine ⟨s.takeWhile (fun c => c != '{'), m, q, ?_⟩
      conv_lhs => rw [← List.takeWhile_append_dropWhile (fun c => c != '{') s]
      rw [ht, hmq]
      simp

/-- A brace span puts a closing brace after the first opening brace. -/
theorem close_mem_dropWhile_of_span {u m q : List Char} :
    ('}' : Char) ∈ (u ++ '{' :: m ++ '}' :: q).dropWhile (fun c => c != '{') := by
  induction u with
  | nil =>
    simp only [List.nil_append, List.cons_append, List.append_assoc]
    rw [dropWhile_cons_neg (p := fun c => c != '{') (by decide)]
    simp
  | cons a u' ih =>
    simp only [List.cons_append, List.append_assoc] at ih ⊢
    by_cases ha : a = '{'
    · subst ha
      rw [dropWhile_cons_neg (p := fun c => c != '{') (by decide)]
      simp
    · rw [List.dropWhile_cons, if_pos (by simpa using ha)]
      exact ih

/-- A string with a brace span makes the greedy regex match. -/
theorem jsonMatch_isSome_of_hasBraceSpan {s : List Char} (h : hasBraceSpan s) :
    (jsonMatch s).isSome := by
  rcases h with ⟨u, m, q, rfl⟩
  unfold jsonMatch
  simp only
  have hmem : ('}' : Char) ∈
      ((u ++ '{' :: m ++ '}' :: q).dropWhile (fun c => c != '{')).reverse := by
    rw [List.mem_reverse]
    exact close_mem_dropWhile_of_span
  have hne := dropWhile_ne_nil_of_mem (p := fun c2 => c2 != '}') hmem (by decide)
  rw [if_neg (by simpa [List.isEmpty_iff] using hne)]
  simp

/-- The greedy match on prose around an embedded object: when the leading
prose has no opening brace and the trailing prose no closing brace, the match
is exactly the embedded object. -/
theorem jsonMatch_embedded {p1 obj p2 : List Char}
    (hp1 : ∀ c ∈ p1, c ≠ '{') (hp2 : ∀ c ∈ p2, c ≠ '}')
    (hhead : obj.head? = some '{') (hlast : obj.getLast? = some '}') :
    jsonMatch (p1 ++ obj ++ p2) = some obj := by
  cases obj with
  | nil => exact absurd hhead (by simp)
  | cons c o =>
    have hc : c = '{' := by simpa using hhead
    subst hc
    have ho : o.getLast? = some '}' := by
      cases o with
      | nil => simp at hlast
      | cons c2 o2 => simpa [List.getLast?_cons_cons] using hlast
    have hor : o.reverse.head? = some '}' := by
      rw [List.head?_reverse]
      exact ho
    obtain ⟨rr, hrr⟩ : ∃ rr, o.reverse = '}' :: rr := by
      cases hrev : o.reverse with
      | nil => rw [hrev] at hor; exact absurd hor (by simp)
      | cons d rr =>
        rw [hrev] at hor
        exact ⟨rr, by simpa using hor⟩
    have ho2 : o = rr.reverse ++ ['}'] := by
      have := congrArg List.reverse hrr
      simpa using this
    have h1 : (p1 ++ ('{' :: o) ++ p2).dropWhile (fun c => c != '{')
        = '{' :: (o ++ p2) := by
      rw [List.append_assoc, List.cons_append]
      rw [dropWhile_append_all (fun x hx => by simpa using hp1 x hx)]
      exact dropWhile_cons_neg (by decide)
    have h2 : ('{' :: (o ++ p2)).reverse.dropWhile (fun c2 => c2 != '}')
        = '}' :: (rr ++ ['{']) := by
      rw [List.reverse_cons, List.reverse_append, List.append_assoc]
      rw [dropWhile_append_all (fun x hx => by
        simpa using hp2 x (List.mem_reverse.mp hx))]
      rw [hrr, List.cons_append]
      exact dropWhile_cons_neg (by decide)
    unfold jsonMatch
    simp only
    rw [h1, h2]
    simp [ho2, List.reverse_append]

/-- Regex failure on a span-free response. -/
theorem extractJson_of_no_span {s : List Char} (hs : ¬ hasBraceSpan s) :
    extractJson s = .error "No JSON found in AI response" := by
  cases hm : jsonMatch s with
  | some r => exact absurd (hasBraceSpan_of_jsonMatch hm) hs
  | none =>
    unfold extractJson
    rw [hm]

/-! ## Fan-out invariants -/

/-- Every generator invocation of the channel's branch throws. -/
def channelFails (gen : GenCall → Except String Json) (c : Channel) : Prop :=
  ∀ call ∈ channelCalls c, ∃ e, gen call = .error e

/-- Every generator invocation of the channel's branch returns content. -/
def channelSucceeds (gen : GenCall → Except String Json) (c : Channel) : Prop :=
  ∀ call ∈ channelCalls c, ∃ v, gen call = .ok v

/-- The `generatedContent` keys a channel's branch can assign. -/
def channelKeys (c : Channel) : List String :=
  (channelCalls c).map GenCall.key

theorem channelKeys_disjoint :
    ∀ b c : Channel, b ≠ c → ∀ call ∈ channelCalls b, call.key ∉ channelKeys c := by
  decide

/-- A channel branch only touches its own keys. -/
theorem runChannel_lookup_of_not_key (gen : GenCall → Except String Json)
    (st : FanOutState) (c : Channel) {k : String} (hk : k ∉ channelKeys c) :
    lookupField (runChannel gen st c).content k = lookupField st.content k := by
  cases c with
  | email =>
    simp [channelKeys, channelCalls, GenCall.key] at hk
    cases hg : gen .emailCall with
    | ok v => simp [runChannel, hg, lookupField_setField_ne _ _ hk]
    | error e => simp [runChannel, hg]
  | social =>
    simp [channelKeys, channelCalls, GenCall.key] at hk
    cases hf : gen .facebookCall with
    | error e => simp [runChannel, hf]
    | ok fv =>
      cases hi : gen .instagramCall with
      | error e => simp [runChannel, hf, hi, lookupField_setField_ne _ _ hk.1]
      | ok iv =>
        simp [runChannel, hf, hi, lookupField_setField_ne _ _ hk.2,
              lookupField_setField_ne _ _ hk.1]
  | ppc =>
    simp [channelKeys, channelCalls, GenCall.key] at hk
    cases hg : gen .ppcCall with
    | ok v => simp [runChannel, hg, lookupField_setField_ne _ _ hk]
    | error e => simp [runChannel, hg]
  | sms =>
    simp [channelKeys, channelCalls, GenCall.key] at hk
    cases hg : gen .smsCall with
    | ok v => simp [runChannel, hg, lookupField_setField_ne _ _ hk]
    | error e => simp [runChannel, hg]

/-- A fully succeeding channel branch stores each call's content under its
key. -/
theorem runChannel_lookup_of_succeeds {gen : GenCall → Except String Json}
    {b : Channel} (hsucc : channelSucceeds gen b) (st : FanOutState)
    {call : GenCall} (hcall : call ∈ channelCalls b) :
    ∃ v, gen call = .ok v ∧
      lookupField (runChannel gen st b).content call.key = some v := by
  cases b with
  | email =>
    simp [channelCalls] at hcall
    subst hcall
    obtain ⟨v, hv⟩ := hsucc .emailCall (by simp [channelCalls])
    exact ⟨v, hv, by simp [runChannel, hv, GenCall.key, lookupField_setField_self]⟩
  | social =>
    obtain ⟨fv, hfv⟩ := hsucc .facebookCall (by simp [channelCalls])
    obtain ⟨iv, hiv⟩ := hsucc .instagramCall (by simp [channelCalls])
    simp [channelCalls] at hcall
    rcases hcall with rfl | rfl
    · refine ⟨fv, hfv, ?_⟩
      simp [runChannel, hfv, hiv, GenCall.key]
      rw [lookupField_setField_ne _ _ (by decide), lookupField_setField_self]
    · refine ⟨iv, hiv, ?_⟩
      simp [runChannel, hfv, hiv, GenCall.key, lookupField_setField_self]
  | ppc =>
    simp [channelCalls] at hcall
    subst hcall
    obtain ⟨v, hv⟩ := hsucc .ppcCall (by simp [channelCalls])
    exact ⟨v, hv, by simp [runChannel, hv, GenCall.key, lookupField_setField_self]⟩
  | sms =>
    simp [channelCalls] at hcall
    subst hcall
    obtain ⟨v, hv⟩ := hsucc .smsCall (by simp [channelCalls])
    exact ⟨v, hv, by simp [runChannel, hv, GenCall.key, lookupField_setField_self]⟩

/-- A fully failing channel branch adds no content. -/
theorem runChannel_content_of_fails {gen : GenCall → Except String Json}
    {c : Channel} (hfail : channelFails gen c) (st : FanOutState) :
    (runChannel gen st c).content = st.content := by
  cases c with
  | email =>
    obtain ⟨e, he⟩ := hfail .emailCall (by simp [channelCalls])
    simp [runChannel, he]
  | social =>
    obtain ⟨e, he⟩ := hfail .facebookCall (by simp [channelCalls])
    simp [runChannel, he]
  | ppc =>
    obtain ⟨e, he⟩ := hfail .ppcCall (by simp [channelCalls])
    simp [runChannel, he]
  | sms =>
    obtain ⟨e, he⟩ := hfail .smsCall (by simp [channelCalls])
    simp [runChannel, he]

/-- A fully failing channel branch pushes its warning. -/
theorem runChannel_errors_of_fails {gen : GenCall → Except String Json}
    {c : Channel} (hfail : channelFails gen c) (st : FanOutState) :
    (runChannel gen st c).errors = st.errors ++ [channelErrorMsg c] := by
  cases c with
  | email =>
    obtain ⟨e, he⟩ := hfail .emailCall (by simp [channelCalls])
    simp [runChannel, he]
  | social =>
    obtain ⟨e, he⟩ := hfail .facebookCall (by simp [channelCalls])
    simp [runChannel, he]
  | ppc =>
    obtain ⟨e, he⟩ := hfail .ppcCall (by simp [channelCalls])
    simp [runChannel, he]
  | sms =>
    obtain ⟨e, he⟩ := hfail .smsCall (by simp [channelCalls])
    simp [runChannel, he]

/-- Warnings are only appended, never removed. -/
theorem runChannel_errors_mono (gen : GenCall → Except String Json)
    (st : FanOutState) (c : Channel) {w : String} (hw : w ∈ st.errors) :
    w ∈ (runChannel gen st c).errors := by
  cases c with
  | email => cases hg : gen .emailCall <;> simp [runChannel, hg, hw]
  | social =>
    cases hf : gen .facebookCall with
    | error e => simp [runChannel, hf, hw]
    | ok fv => cases hi : gen .instagramCall <;> simp [runChannel, hf, hi, hw]
  | ppc => cases hg : gen .ppcCall <;> simp [runChannel, hg, hw]
  | sms => cases hg : gen .smsCall <;> simp [runChannel, hg, hw]

/-- Every event a channel branch appends is a generator invocation. -/
theorem runChannel_events_shape (gen : GenCall → Except String Json)
    (st : FanOutState) (c : Channel) :
    ∃ new, (runChannel gen st c).events = st.events ++ new ∧
      ∀ e ∈ new, ∃ g, e = Event.generatorCall g := by
  cases c with
  | email =>
    cases hg : gen .emailCall with
    | ok v => exact ⟨[.generatorCall .emailCall], by simp [runChannel, hg]⟩
    | error e => exact ⟨[.generatorCall .emailCall], by simp [runChannel, hg]⟩
  | social =>
    cases hf : gen .facebookCall with
    | error e => exact ⟨[.generatorCall .facebookCall], by simp [runChannel, hf]⟩
    | ok fv =>
      cases hi : gen .instagramCall with
      | error e =>
        exact ⟨[.generatorCall .facebookCall, .generatorCall .instagramCall],
               by simp [runChannel, hf, hi]⟩
      | ok iv =>
        exact ⟨[.generatorCall .facebookCall, .generatorCall .instagramCall],
               by simp [runChannel, hf, hi]⟩
  | ppc =>
    cases hg : gen .ppcCall with
    | ok v => exact ⟨[.generatorCall .ppcCall], by simp [runChannel, hg]⟩
    | error e => exact ⟨[.generatorCall .ppcCall], by simp [runChannel, hg]⟩
  | sms =>
    cases hg : gen .smsCall with
    | ok v => exact ⟨[.generatorCall .smsCall], by simp [runChannel, hg]⟩
    | error e => exact ⟨[.generatorCall .smsCall], by simp [runChannel, hg]⟩

theorem foldl_lookup_preserved (gen : GenCall → Except String Json)
    (l : List Channel) (st : FanOutState) {k : String}
    (hk : ∀ c ∈ l, k ∉ channelKeys c) :
    lookupField (l.foldl (runChannel gen) st).content k = lookupField st.content k := by
  induction l generalizing st with
  | nil => rfl
  | cons c t ih =>
    rw [List.foldl_cons,
        ih (runChannel gen st c) (fun c' hc' => hk c' (List.mem_cons_of_mem c hc'))]
    exact runChannel_lookup_of_not_key gen st c (hk c (List.mem_cons_self c t))

theorem foldl_lookup_of_succeeds (gen : GenCall → Except String Json) {b : Channel}
    (hsucc : channelSucceeds gen b) {l : List Channel} (hb : b ∈ l)
    (st : FanOutState) {call : GenCall} (hcall : call ∈ channelCalls b) :
    ∃ v, gen call = .ok v ∧
      lookupField (l.foldl (runChannel gen) st).content call.key = some v := by
  induction l generalizing st with
  | nil => cases hb
  | cons c t ih =>
    rw [List.foldl_cons]
    by_cases hbt : b ∈ t
    · exact ih hbt (runChannel gen st c)
    · have hbc : b = c := by
        rcases List.mem_cons.mp hb with h | h
        · exact h
        · exact absurd h hbt
      subst hbc
      obtain ⟨v, hv, hlook⟩ := runChannel_lookup_of_succeeds hsucc st hcall
      refine ⟨v, hv, ?_⟩
      rw [foldl_lookup_preserved gen t _
            (fun c' hc' => channelKeys_disjoint b c' (fun he => hbt (he ▸ hc')) call hcall)]
      exact hlook

theorem foldl_errors_mono (gen : GenCall → Except String Json) (l : List Channel)
    (st : FanOutState) {w : String} (hw : w ∈ st.errors) :
    w ∈ (l.foldl (runChannel gen) st).errors := by
  induction l generalizing st with
  | nil => exact hw
  | cons c t ih => exact ih _ (runChannel_errors_mono gen st c hw)

theorem foldl_errors_of_fails (gen : GenCall → Except String Json) {a : Channel}
    (hfail : channelFails gen a) {l : List Channel} (ha : a ∈ l) (st : FanOutState) :
    channelErrorMsg a ∈ (l.foldl (runChannel gen) st).errors := by
  induction l generalizing st with
  | nil => cases ha
  | cons c t ih =>
    rw [List.foldl_cons]
    rcases List.mem_cons.mp ha with rfl | hat
    · apply foldl_errors_mono
      rw [runChannel_errors_of_fails hfail]
      simp
    · exact ih hat _

theorem foldl_content_of_all_fail (gen : GenCall → Except String Json)
    {l : List Channel} (h : ∀ c ∈ l, channelFails gen c) (st : FanOutState) :
    (l.foldl (runChannel gen) st).content = st.content := by
  induction l generalizing st with
  | nil => rfl
  | cons c t ih =>
    rw [List.foldl_cons, ih (fun c' hc' => h c' (List.mem_cons_of_mem c hc')) _,
        runChannel_content_of_fails (h c (List.mem_cons_self c t))]

theorem foldl_events_shape (gen : GenCall → Except String Json) (l : List Channel)
    (st : FanOutState) :
    ∃ new, (l.foldl (runChannel gen) st).events = st.events ++ new ∧
      ∀ e ∈ new, ∃ g, e = Event.generatorCall g := by
  induction l generalizing st with
  | nil => exact ⟨[], by simp⟩
  | cons c t ih =>
    obtain ⟨n1, hn1, hg1⟩ := runChannel_events_shape gen st c
    obtain ⟨n2, hn2, hg2⟩ := ih (runChannel gen st c)
    refine ⟨n1 ++ n2, ?_, ?_⟩
    · rw [List.foldl_cons, hn2, hn1, List.append_assoc]
    · intro e he
      rcases List.mem_append.mp he with h | h
      · exact hg1 e h
      · exact hg2 e h

theorem fanOut_events_generatorCall (gen : GenCall → Except String Json)
    (l : List Channel) :
    ∀ e ∈ (fanOut gen l).events, ∃ g, e = Event.generatorCall g := by
  obtain ⟨new, hn, hg⟩ := foldl_events_shape gen l ⟨[], [], []⟩
  intro e he
  unfold fanOut at he
  rw [hn] at he
  simp at he
  exact hg e he

/-! ## Generator inversion lemmas -/

theorem generateEmail_error_unique {s : List Char} {e : String}
    (h : generateEmailContent s = .error e) : e = emailFailureMsg := by
  unfold generateEmailContent at h
  cases hi : emailContentInner s <;> rw [hi] at h <;> simpa using h.symm

theorem generatePPC_error_unique {s : List Char} {e : String}
    (h : generatePPCContent s = .error e) : e = ppcFailureMsg := by
  unfold generatePPCContent at h
  cases hi : ppcContentInner s <;> rw [hi] at h <;> simpa using h.symm

theorem generateSMS_error_unique {s : List Char} {e : String}
    (h : generateSMSContent s = .error e) : e = smsFailureMsg := by
  unfold generateSMSContent at h
  cases hi : smsContentInner s <;> rw [hi] at h <;> simpa using h.symm

theorem generateSocial_error_unique {p : String} {s : List Char} {e : String}
    (h : generateSocialContent p s = .error e) : e = socialFailureMsg := by
  unfold generateSocialContent at h
  cases hi : socialContentInner s <;> rw [hi] at h <;> simpa using h.symm

theorem emailInner_ok_inv {s : List Char} {v : Json}
    (hinner : emailContentInner s = .ok v) :
    extractJson s = .ok v ∧ truthyField v "subject" = true ∧
      truthyField v "body" = true := by
  unfold emailContentInner at hinner
  cases hext : extractJson s with
  | error e =>
    rw [hext] at hinner
    exact Except.noConfusion
      (show (Except.error e : Except String Json) = Except.ok v from hinner)
  | ok parsed =>
    rw [hext, show (Except.ok parsed : Except String Json) = pure parsed from rfl,
        pure_bind] at hinner
    cases hsub : truthyField parsed "subject" <;>
      cases hbody : truthyField parsed "body" <;>
      rw [hsub, hbody] at hinner <;>
      simp only [Bool.not_true, Bool.not_false, Bool.or_true, Bool.true_or,
                 Bool.or_false, Bool.false_or, reduceIte] at hinner
    · exact Except.noConfusion (show (Except.error _ : Except String Json)
        = Except.ok v from hinner)
    · exact Except.noConfusion (show (Except.error _ : Except String Json)
        = Except.ok v from hinner)
    · exact Except.noConfusion (show (Except.error _ : Except String Json)
        = Except.ok v from hinner)
    · cases show (Except.ok parsed : Except String Json) = Except.ok v from hinner
      exact ⟨rfl, hsub, hbody⟩

theorem ppcInner_ok_inv {s : List Char} {v : Json}
    (hinner : ppcContentInner s = .ok v) :
    extractJson s = .ok v ∧ truthyField v "headline" = true ∧
      truthyField v "description" = true := by
  unfold ppcContentInner at hinner
  cases hext : extractJson s with
  | error e =>
    rw [hext] at hinner
    exact Except.noConfusion
      (show (Except.error e : Except String Json) = Except.ok v from hinner)
  | ok parsed =>
    rw [hext, show (Except.ok parsed : Except String Json) = pure parsed from rfl,
        pure_bind] at hinner
    cases hh : truthyField parsed "headline" <;>
      cases hd : truthyField parsed "description" <;>
      rw [hh, hd] at hinner <;>
      simp only [Bool.not_true, Bool.not_false, Bool.or_true, Bool.true_or,
                 Bool.or_false, Bool.false_or, reduceIte] at hinner
    · exact Except.noConfusion (show (Except.error _ : Except String Json)
        = Except.ok v from hinner)
    · exact Except.noConfusion (show (Except.error _ : Except String Json)
        = Except.ok v from hinner)
    · exact Except.noConfusion (show (Except.error _ : Except String Json)
        = Except.ok v from hinner)
    · cases show (Except.ok parsed : Except String Json) = Except.ok v from hinner
      exact ⟨rfl, hh, hd⟩

theorem smsInner_ok_inv {s : List Char} {v : Json}
    (hinner : smsContentInner s = .ok v) :
    extractJson s = .ok v ∧ truthyField v "body" = true := by
  unfold smsContentInner at hinner
  cases hext : extractJson s with
  | error e =>
    rw [hext] at hinner
    exact Except.noConfusion
      (show (Except.error e : Except String Json) = Except.ok v from hinner)
  | ok parsed =>
    rw [hext, show (Except.ok parsed : Except String Json) = pure parsed from rfl,
        pure_bind] at hinner
    cases hbody : truthyField parsed "body" <;>
      rw [hbody] at hinner <;>
      simp only [Bool.not_true, Bool.not_false, reduceIte] at hinner
    · exact Except.noConfusion (show (Except.error _ : Except String Json)
        = Except.ok v from hinner)
    · cases show (Except.ok parsed : Except String Json) = Except.ok v from hinner
      exact ⟨rfl, hbody⟩

theorem socialInner_ok_inv {s : List Char} {v : Json}
    (hinner : socialContentInner s = .ok v) :
    ∃ parsed, extractJson s = .ok parsed ∧ truthyField parsed "body" = true := by
  unfold socialContentInner at hinner
  cases hext : extractJson s with
  | error e =>
    rw [hext] at hinner
    exact Except.noConfusion
      (show (Except.error e : Except String Json) = Except.ok v from hinner)
  | ok parsed =>
    rw [hext, show (Except.ok parsed : Except String Json) = pure parsed from rfl,
        pure_bind] at hinner
    cases hbody : truthyField parsed "body" with
    | false =>
      rw [hbody] at hinner
      simp only [Bool.not_false, reduceIte] at hinner
      exact Except.noConfusion (show (Except.error _ : Except String Json)
        = Except.ok v from hinner)
    | true => exact ⟨parsed, rfl, hbody⟩

theorem emailInner_error_of_fields {s : List Char} {v : Json}
    (hext : extractJson s = .ok v)
    (hmiss : truthyField v "subject" = false ∨ truthyField v "body" = false) :
    emailContentInner s = .error "Missing required fields in AI response" := by
  unfold emailContentInner
  rw [hext, show (Except.ok v : Except String Json) = pure v from rfl, pure_bind]
  rw [if_pos]
  · rfl
  · rcases hmiss with h | h <;> simp [h]

theorem ppcInner_error_of_fields {s : List Char} {v : Json}
    (hext : extractJson s = .ok v)
    (hmiss : truthyField v "headline" = false ∨ truthyField v "description" = false) :
    ppcContentInner s = .error "Missing required fields in AI response" := by
  unfold ppcContentInner
  rw [hext, show (Except.ok v : Except String Json) = pure v from rfl, pure_bind]
  rw [if_pos]
  · rfl
  · rcases hmiss with h | h <;> simp [h]

theorem smsInner_error_of_fields {s : List Char} {v : Json}
    (hext : extractJson s = .ok v) (hmiss : truthyField v "body" = false) :
    smsContentInner s = .error "Missing required fields in AI response" := by
  unfold smsContentInner
  rw [hext, show (Except.ok v : Except String Json) = pure v from rfl, pure_bind]
  rw [if_pos]
  · rfl
  · simp [hmiss]

theorem socialInner_error_of_fields {s : List Char} {v : Json}
    (hext : extractJson s = .ok v) (hmiss : truthyField v "body" = false) :
    socialContentInner s = .error "Missing required fields in AI response" := by
  unfold socialContentInner
  rw [hext, show (Except.ok v : Except String Json) = pure v from rfl, pure_bind]
  rw [if_pos]
  · rfl
  · simp [hmiss]

theorem generateEmail_error_of_inner {s : List Char} {e : String}
    (h : emailContentInner s = .error e) :
    generateEmailContent s = .error emailFailureMsg := by
  unfold generateEmailContent
  rw [h]

theorem generatePPC_error_of_inner {s : List Char} {e : String}
    (h : ppcContentInner s = .error e) :
    generatePPCContent s = .error ppcFailureMsg := by
  unfold generatePPCContent
  rw [h]

theorem generateSMS_error_of_inner {s : List Char} {e : String}
    (h : smsContentInner s = .error e) :
    generateSMSContent s = .error smsFailureMsg := by
  unfold generateSMSContent
  rw [h]

theorem generateSocial_error_of_inner {p : String} {s : List Char} {e : String}
    (h : socialContentInner s = .error e) :
    generateSocialContent p s = .error socialFailureMsg := by
  unfold generateSocialContent
  rw [h]

theorem emailInner_error_of_extract {s : List Char} {e : String}
    (h : extractJson s = .error e) : emailContentInner s = .error e := by
  unfold emailContentInner
  rw [h]
  rfl

theorem ppcInner_error_of_extract {s : List Char} {e : String}
    (h : extractJson s = .error e) : ppcContentInner s = .error e := by
  unfold ppcContentInner
  rw [h]
  rfl

theorem smsInner_error_of_extract {s : List Char} {e : String}
    (h : extractJson s = .error e) : smsContentInner s = .error e := by
  unfold smsContentInner
  rw [h]
  rfl

theorem socialInner_error_of_extract {s : List Char} {e : String}
    (h : extractJson s = .error e) : socialContentInner s = .error e := by
  unfold socialContentInner
  rw [h]
  rfl

theorem generateEmail_ok_inv {s : List Char} {v : Json}
    (h : generateEmailContent s = .ok v) : emailContentInner s = .ok v := by
  unfold generateEmailContent at h
  cases hi : emailContentInner s <;> rw [hi] at h
  · exact Except.noConfusion h
  · cases h
    rfl

theorem generatePPC_ok_inv {s : List Char} {v : Json}
    (h : generatePPCContent s = .ok v) : ppcContentInner s = .ok v := by
  unfold generatePPCContent at h
  cases hi : ppcContentInner s <;> rw [hi] at h
  · exact Except.noConfusion h
  · cases h
    rfl

theorem generateSMS_ok_inv {s : List Char} {v : Json}
    (h : generateSMSContent s = .ok v) : smsContentInner s = .ok v := by
  unfold generateSMSContent at h
  cases hi : smsContentInner s <;> rw [hi] at h
  · exact Except.noConfusion h
  · cases h
    rfl

theorem generateSocial_ok_inv {p : String} {s : List Char} {v : Json}
    (h : generateSocialContent p s = .ok v) : socialContentInner s = .ok v := by
  unfold generateSocialContent at h
  cases hi : socialContentInner s <;> rw [hi] at h
  · exact Except.noConfusion h
  · cases h
    rfl

/-! ## Inversion of the schema validation -/

theorem someBind (a : α) (f : α → Option β) : (some a >>= f) = f a := rfl

theorem asStr_inv {v : Json} {s : String} (h : asStr v = some s) : v = .str s := by
  cases v <;> simp [asStr] at h
  rw [h]

theorem asBool_inv {v : Json} {b : Bool} (h : asBool v = some b) : v = .bool b := by
  cases v <;> simp [asBool] at h
  rw [h]

theorem asObj_inv {v : Json} {fs : List (String × Json)} (h : asObj v = some fs) :
    v = .obj fs := by
  cases v <;> simp [asObj] at h
  rw [h]

theorem reqField_str_inv {fields : List (String × Json)} {k : String} {s : String}
    (h : reqField fields k asStr = some s) :
    lookupField fields k = some (.str s) := by
  rcases Option.bind_eq_some.mp h with ⟨v, hv, hs⟩
  rw [asStr_inv hs] at hv
  exact hv

theorem reqField_bool_inv {fields : List (String × Json)} {k : String} {b : Bool}
    (h : reqField fields k asBool = some b) :
    lookupField fields k = some (.bool b) := by
  rcases Option.bind_eq_some.mp h with ⟨v, hv, hb⟩
  rw [asBool_inv hb] at hv
  exact hv

theorem parseChannels_inv {v : Json} {l : List Channel}
    (h : parseChannels v = some l) :
    ∃ cs, v = .arr cs ∧ mapOption parseChannel cs = some l := by
  cases v <;> simp [parseChannels] at h
  exact ⟨_, rfl, h⟩

theorem parseContentSpec_inv {v : Json} {spec : ContentSpec}
    (h : parseContentSpec v = some spec) :
    ∃ sf, v = .obj sf ∧
      lookupField sf "keyMessage" = some (.str spec.keyMessage) := by
  unfold parseContentSpec at h
  cases hobj : asObj v with
  | none => rw [hobj] at h; exact absurd h (by simp)
  | some sf =>
    rw [hobj, someBind] at h
    cases htone : optField sf "tone" asStr with
    | none => rw [htone] at h; exact absurd h (by simp)
    | some tone =>
      rw [htone, someBind] at h
      cases hkm : reqField sf "keyMessage" asStr with
      | none => rw [hkm] at h; exact absurd h (by simp)
      | some km =>
        rw [hkm, someBind] at h
        cases hcta : optField sf "callToAction" asStr with
        | none => rw [hcta] at h; exact absurd h (by simp)
        | some cta =>
          rw [hcta, someBind] at h
          cases show (⟨tone, km, cta⟩ : ContentSpec) = spec from by simpa using h
          exact ⟨sf, asObj_inv hobj, reqField_str_inv hkm⟩

/-- C1, amended: any value accepted by the campaign schema has a `goal`
string, a `channels` array whose every member is one of the four channel
literals, a `contentSpec` object with a `keyMessage` string, and an
explicitly present boolean `needsClarification` — but none of the
non-emptiness conditions of the original claim. -/
theorem c1_schema_gate (j : Json) (i : CampaignIntent)
    (h : validateCampaign j = some i) :
    ∃ fields cs, j = .obj fields ∧
      lookupField fields "goal" = some (.str i.goal) ∧
      lookupField fields "channels" = some (.arr cs) ∧
      mapOption parseChannel cs = some i.channels ∧
      (∀ x ∈ cs, ∃ c : Channel, parseChannel x = some c ∧ x = .str c.name) ∧
      (∃ sf, lookupField fields "contentSpec" = some (.obj sf) ∧
        lookupField sf "keyMessage" = some (.str i.contentSpec.keyMessage)) ∧
      lookupField fields "needsClarification" = some (.bool i.needsClarification) := by
  unfold validateCampaign at h
  cases hobj : asObj j with
  | none => rw [hobj] at h; exact absurd h (by simp)
  | some fields =>
    rw [hobj, someBind] at h
    cases hg : reqField fields "goal" asStr with
    | none => rw [hg] at h; exact absurd h (by simp)
    | some goal =>
      rw [hg, someBind] at h
      cases hch : reqField fields "channels" parseChannels with
      | none => rw [hch] at h; exact absurd h (by simp)
      | some channels =>
        rw [hch, someBind] at h
        cases hcs : reqField fields "contentSpec" parseContentSpec with
        | none => rw [hcs] at h; exact absurd h (by simp)
        | some spec =>
          rw [hcs, someBind] at h
          cases hac : reqField fields "audienceCriteria" parseAudienceCriteria with
          | none => rw [hac] at h; exact absurd h (by simp)
          | some audience =>
            rw [hac, someBind] at h
            cases hbud : optField fields "budget" asNum with
            | none => rw [hbud] at h; exact absurd h (by simp)
            | some budget =>
              rw [hbud, someBind] at h
              cases hsch : optField fields "schedule" parseSchedule with
              | none => rw [hsch] at h; exact absurd h (by simp)
              | some schedule =>
                rw [hsch, someBind] at h
                cases hnc : reqField fields "needsClarification" asBool with
                | none => rw [hnc] at h; exact absurd h (by simp)
                | some needs =>
                  rw [hnc, someBind] at h
                  cases hcq : optField fields "clarificationQuestions" parseStringArray with
                  | none => rw [hcq] at h; exact absurd h (by simp)
                  | some qs =>
                    rw [hcq, someBind] at h
                    cases show (⟨goal, channels, spec, audience, budget, schedule,
                        needs, qs⟩ : CampaignIntent) = i from by simpa using h
                    rcases Option.bind_eq_some.mp hch with ⟨chJson, hchl, hchp⟩
                    rcases parseChannels_inv hchp with ⟨cs, rfl, hmap⟩
                    rcases Option.bind_eq_some.mp hcs with ⟨csJson, hcsl, hcsp⟩
                    rcases parseContentSpec_inv hcsp with ⟨sf, rfl, hkm⟩
                    refine ⟨fields, cs, asObj_inv hobj, reqField_str_inv hg,
                            hchl, hmap, ?_, ⟨sf, hcsl, hkm⟩, reqField_bool_inv hnc⟩
                    intro x hx
                    obtain ⟨c, hc⟩ := mapOption_mem hmap x hx
                    exact ⟨c, hc, parseChannel_shape hc⟩

/-! ## Concrete instances used by witnesses and counterexamples -/

def jGood : Json := .obj
  [("goal", .str "increase signups"),
   ("channels", .arr [.str "email"]),
   ("contentSpec", .obj [("keyMessage", .str "New feature")]),
   ("audienceCriteria", .obj []),
   ("needsClarification", .bool false)]

def iGood : CampaignIntent :=
  ⟨"increase signups", [.email], ⟨none, "New feature", none⟩, ⟨none, none, none⟩,
   none, none, false, none⟩

/-- Accepted by the schema although `goal`, `channels` and `keyMessage` are
all empty while `needsClarification` is false. -/
def jBad : Json := .obj
  [("goal", .str ""),
   ("channels", .arr []),
   ("contentSpec", .obj [("keyMessage", .str "")]),
   ("audienceCriteria", .obj []),
   ("needsClarification", .bool false)]

def iBad : CampaignIntent :=
  ⟨"", [], ⟨none, "", none⟩, ⟨none, none, none⟩, none, none, false, none⟩

/-- Accepted by the schema with an empty goal and keyMessage but a non-empty
channel list, so the orchestrator proceeds to generation with it. -/
def jBad2 : Json := .obj
  [("goal", .str ""),
   ("channels", .arr [.str "email"]),
   ("contentSpec", .obj [("keyMessage", .str "")]),
   ("audienceCriteria", .obj []),
   ("needsClarification", .bool false)]

def iBad2 : CampaignIntent :=
  ⟨"", [.email], ⟨none, "", none⟩, ⟨none, none, none⟩, none, none, false, none⟩

/-- Every generator invocation throws. -/
def genAllFail : GenCall → Except String Json := fun _ => .error "LLM unreachable"

/-- `needsClarification` true but `clarificationQuestions` absent. -/
def intentNoQs : CampaignIntent :=
  ⟨"boost sales", [.email], ⟨none, "new promo", none⟩, ⟨none, none, none⟩,
   none, none, true, none⟩

/-- `needsClarification` true with two questions. -/
def intentWithQs : CampaignIntent :=
  ⟨"", [], ⟨none, "", none⟩, ⟨none, none, none⟩, none, none, true,
   some ["What is your goal?", "Which channels?"]⟩

/-! ## C1 -/

/-- C1, corrected: the schema accepts a response with
`needsClarification == false`, an empty goal, an empty channel list and an
empty key message; a second accepted response with a non-empty channel list
reaches the content generator.  This refutes the claimed non-emptiness
rejection. -/
theorem c1_counterexample :
    validateCampaign jBad = some iBad ∧
    iBad.needsClarification = false ∧ iBad.goal = "" ∧ iBad.channels = [] ∧
    iBad.contentSpec.keyMessage = "" ∧
    validateCampaign jBad2 = some iBad2 ∧
    iBad2.needsClarification = false ∧ iBad2.goal = "" ∧
    iBad2.contentSpec.keyMessage = "" ∧
    Event.generatorCall GenCall.emailCall ∈ (orchestrate genAllFail iBad2 "p").2 := by
  refine ⟨rfl, rfl, rfl, rfl, rfl, rfl, rfl, rfl, rfl, ?_⟩
  decide

theorem c1_schema_gate_witness :
    ∃ fields cs, jGood = .obj fields ∧
      lookupField fields "goal" = some (.str iGood.goal) ∧
      lookupField fields "channels" = some (.arr cs) ∧
      mapOption parseChannel cs = some iGood.channels ∧
      (∀ x ∈ cs, ∃ c : Channel, parseChannel x = some c ∧ x = .str c.name) ∧
      (∃ sf, lookupField fields "contentSpec" = some (.obj sf) ∧
        lookupField sf "keyMessage" = some (.str iGood.contentSpec.keyMessage)) ∧
      lookupField fields "needsClarification" =
        some (.bool iGood.needsClarification) :=
  c1_schema_gate jGood iGood (by rfl)

/-! ## C2 -/

/-- C2, amended: with `needsClarification` true the orchestrator never
invokes a generator, and when `clarificationQuestions` is present the
response message is the clarification template rendering the questions in
order.  (When the questions are absent the confirmation template runs
instead — see the counterexample.) -/
theorem c2_clarification_short_circuit (gen : GenCall → Except String Json)
    (intent : CampaignIntent) (prompt : String)
    (hnc : intent.needsClarification = true) :
    (∀ g, Event.generatorCall g ∉ (orchestrate gen intent prompt).2) ∧
    (∀ qs, intent.clarificationQuestions = some qs →
      (orchestrate gen intent prompt).1 = .clarification (clarificationRendering qs)) := by
  constructor
  · intro g
    simp [orchestrate, hnc]
  · intro qs hq
    simp [orchestrate, hnc, generateResponse, hq]

/-- C2, counterexample: a parsed intent with `needsClarification == true` but
no `clarificationQuestions` field makes `generateResponse` fall through to
the confirmation template, so the response message is not the rendered
clarification questions. -/
theorem c2_counterexample :
    intentNoQs.needsClarification = true ∧
    (orchestrate genAllFail intentNoQs "p").1 =
      .clarification (confirmationMessage intentNoQs) ∧
    confirmationMessage intentNoQs ≠
      clarificationRendering (intentNoQs.clarificationQuestions.getD []) := by
  refine ⟨rfl, rfl, by decide⟩

theorem c2_witness :
    Event.generatorCall GenCall.emailCall ∉
      (orchestrate genAllFail intentWithQs "p").2 ∧
    (orchestrate genAllFail intentWithQs "p").1 =
      .clarification (clarificationRendering
        ["What is your goal?", "Which channels?"]) :=
  ⟨(c2_clarification_short_circuit genAllFail intentWithQs "p" rfl).1 GenCall.emailCall,
   (c2_clarification_short_circuit genAllFail intentWithQs "p" rfl).2
     ["What is your goal?", "Which channels?"] rfl⟩

/-! ## C3 -/

/-- C3, confirmed: if every invocation of channel `a` throws while every
invocation of channel `b` returns content, the orchestrator still returns a
campaign whose content holds each of `b`'s generated values under its key,
whose warnings name channel `a`, and a Campaign is created in status
`ready`. -/
theorem c3_channel_isolation (gen : GenCall → Except String Json)
    (intent : CampaignIntent) (prompt : String) (a b : Channel)
    (hnc : intent.needsClarification = false)
    (ha : a ∈ intent.channels) (hb : b ∈ intent.channels)
    (hfail : channelFails gen a) (hsucc : channelSucceeds gen b) :
    ∃ warnings events,
      orchestrate gen intent prompt =
        (.campaign (fanOut gen intent.channels).content warnings
          (readyMessage intent.channels), events) ∧
      channelErrorMsg a ∈ warnings ∧
      (∀ call ∈ channelCalls b, ∃ v, gen call = .ok v ∧
        lookupField (fanOut gen intent.channels).content call.key = some v) ∧
      Event.createCampaign "ready" ∈ events := by
  have hlookAll : ∀ call ∈ channelCalls b, ∃ v, gen call = .ok v ∧
      lookupField (fanOut gen intent.channels).content call.key = some v :=
    fun call hcall => foldl_lookup_of_succeeds gen hsucc hb ⟨[], [], []⟩ hcall
  have hne : (fanOut gen intent.channels).content.isEmpty = false := by
    have hcne : channelCalls b ≠ [] := by cases b <;> simp [channelCalls]
    obtain ⟨call, hcall⟩ := List.exists_mem_of_ne_nil _ hcne
    obtain ⟨v, hv, hlook⟩ := hlookAll call hcall
    have hnn := ne_nil_of_lookupField hlook
    cases hcontent : (fanOut gen intent.channels).content with
    | nil => exact absurd hcontent hnn
    | cons p rest => rfl
  have hwarn : channelErrorMsg a ∈ (fanOut gen intent.channels).errors :=
    foldl_errors_of_fails gen hfail ha ⟨[], [], []⟩
  refine ⟨(fanOut gen intent.channels).errors,
    [.parseIntent, .appendUserMessage prompt] ++ (fanOut gen intent.channels).events ++
      [.createCampaign "ready",
       .appendAssistantMessage (readyMessage intent.channels)],
    ?_, hwarn, hlookAll, ?_⟩
  · simp [orchestrate, hnc, hne]
  · simp

/-- Email throws, SMS succeeds. -/
def genEmailFails : GenCall → Except String Json := fun call =>
  match call with
  | .emailCall => .error "network error"
  | _ => .ok (.str "generated")

def intentEmailSms : CampaignIntent :=
  ⟨"grow", [.email, .sms], ⟨none, "msg", none⟩, ⟨none, none, none⟩,
   none, none, false, none⟩

theorem c3_channel_isolation_witness :
    ∃ warnings events,
      orchestrate genEmailFails intentEmailSms "p" =
        (.campaign (fanOut genEmailFails intentEmailSms.channels).content warnings
          (readyMessage intentEmailSms.channels), events) ∧
      channelErrorMsg .email ∈ warnings ∧
      (∀ call ∈ channelCalls .sms, ∃ v, genEmailFails call = .ok v ∧
        lookupField (fanOut genEmailFails intentEmailSms.channels).content call.key
          = some v) ∧
      Event.createCampaign "ready" ∈ events :=
  c3_channel_isolation genEmailFails intentEmailSms "p" .email .sms rfl
    (by simp [intentEmailSms]) (by simp [intentEmailSms])
    (by
      intro call hc
      simp [channelCalls] at hc
      subst hc
      exact ⟨"network error", rfl⟩)
    (by
      intro call hc
      simp [channelCalls] at hc
      subst hc
      exact ⟨.str "generated", rfl⟩)

/-! ## C4 -/

/-- C4, confirmed: when every requested channel's every invocation throws,
the orchestrator raises the request-level error and the trace holds no
campaign-creation step. -/
theorem c4_total_failure (gen : GenCall → Except String Json)
    (intent : CampaignIntent) (prompt : String)
    (hnc : intent.needsClarification = false)
    (hfail : ∀ c ∈ intent.channels, channelFails gen c) :
    (orchestrate gen intent prompt).1 =
      .apiError "Failed to generate content for any channel" ∧
    ∀ s, Event.createCampaign s ∉ (orchestrate gen intent prompt).2 := by
  have hcontent : (fanOut gen intent.channels).content = [] :=
    foldl_content_of_all_fail gen hfail ⟨[], [], []⟩
  have hempty : (fanOut gen intent.channels).content.isEmpty = true := by
    rw [hcontent]
    rfl
  constructor
  · simp [orchestrate, hnc, hempty]
  · intro s hmem
    simp [orchestrate, hnc, hempty] at hmem
    obtain ⟨g, hg⟩ := fanOut_events_generatorCall gen intent.channels _ hmem
    exact Event.noConfusion hg

theorem c4_total_failure_witness :
    (orchestrate genAllFail intentEmailSms "p").1 =
      .apiError "Failed to generate content for any channel" ∧
    ∀ s, Event.createCampaign s ∉ (orchestrate genAllFail intentEmailSms "p").2 :=
  c4_total_failure genAllFail intentEmailSms "p" rfl
    (by
      intro c hc call hcall
      exact ⟨"LLM unreachable", rfl⟩)

/-! ## C5 -/

/-- C5, amended: the social branch runs both platform generations inside one
try block.  A facebook failure records one social warning and skips the
instagram invocation entirely; an instagram failure after a facebook success
keeps the already-assigned facebook content and records the warning. -/
theorem c5_social_coupling :
    (∀ gen (st : FanOutState), (∃ e, gen GenCall.facebookCall = .error e) →
      runChannel gen st .social =
        ⟨st.content, st.errors ++ [channelErrorMsg .social],
         st.events ++ [.generatorCall .facebookCall]⟩) ∧
    (∀ gen (st : FanOutState) fv, gen GenCall.facebookCall = .ok fv →
      (∃ e, gen GenCall.instagramCall = .error e) →
      runChannel gen st .social =
        ⟨setField st.content "facebook" fv,
         st.errors ++ [channelErrorMsg .social],
         st.events ++ [.generatorCall .facebookCall,
                       .generatorCall .instagramCall]⟩) := by
  constructor
  · rintro gen st ⟨e, he⟩
    simp [runChannel, he]
  · rintro gen st fv hf ⟨e, he⟩
    simp [runChannel, hf, he]

/-- Facebook throws, instagram would succeed. -/
def genFbFails : GenCall → Except String Json := fun call =>
  match call with
  | .facebookCall => .error "network error"
  | _ => .ok (.str "post")

/-- Facebook succeeds, instagram throws. -/
def genIgFails : GenCall → Except String Json := fun call =>
  match call with
  | .instagramCall => .error "network error"
  | _ => .ok (.str "post")

def intentSocialOnly : CampaignIntent :=
  ⟨"grow", [.social], ⟨none, "msg", none⟩, ⟨none, none, none⟩,
   none, none, false, none⟩

/-- C5, counterexample: with facebook failing and instagram set to succeed,
the instagram generation is never attempted and the whole request fails —
refuting the claimed independence of the two platform generations. -/
theorem c5_counterexample :
    genFbFails GenCall.facebookCall = .error "network error" ∧
    genFbFails GenCall.instagramCall = .ok (.str "post") ∧
    Event.generatorCall GenCall.instagramCall ∉
      (orchestrate genFbFails intentSocialOnly "p").2 ∧
    (orchestrate genFbFails intentSocialOnly "p").1 =
      .apiError "Failed to generate content for any channel" := by
  refine ⟨rfl, rfl, ?_, rfl⟩
  decide

def emptyFanOutState : FanOutState := ⟨[], [], []⟩

theorem c5_social_coupling_witness :
    runChannel genFbFails emptyFanOutState .social =
      ⟨emptyFanOutState.content,
       emptyFanOutState.errors ++ [channelErrorMsg .social],
       emptyFanOutState.events ++ [.generatorCall .facebookCall]⟩ ∧
    runChannel genIgFails emptyFanOutState .social =
      ⟨setField emptyFanOutState.content "facebook" (.str "post"),
       emptyFanOutState.errors ++ [channelErrorMsg .social],
       emptyFanOutState.events ++ [.generatorCall .facebookCall,
                                   .generatorCall .instagramCall]⟩ :=
  ⟨c5_social_coupling.1 genFbFails emptyFanOutState ⟨"network error", rfl⟩,
   c5_social_coupling.2 genIgFails emptyFanOutState (.str "post") rfl
     ⟨"network error", rfl⟩⟩

/-! ## C6 -/

/-- C6, confirmed: prose (no opening brace before, no closing brace after)
around one parsable JSON object is stripped and the object parsed; a
response with no brace span deterministically fails extraction, and the
generator surfaces its channel error. -/
theorem c6_extraction :
    (∀ p1 obj p2 v, (∀ c ∈ p1, c ≠ '{') → (∀ c ∈ p2, c ≠ '}') →
      obj.head? = some '{' → obj.getLast? = some '}' →
      parseJson obj = some v →
      extractJson (p1 ++ obj ++ p2) = .ok v) ∧
    (∀ s, ¬ hasBraceSpan s →
      extractJson s = .error "No JSON found in AI response" ∧
      generateEmailContent s = .error emailFailureMsg ∧
      generatePPCContent s = .error ppcFailureMsg) := by
  constructor
  · intro p1 obj p2 v hp1 hp2 hh hl hparse
    unfold extractJson
    rw [jsonMatch_embedded hp1 hp2 hh hl]
    show (match parseJson obj with
      | none => Except.error "SyntaxError: invalid JSON"
      | some v => Except.ok v) = Except.ok v
    rw [hparse]
  · intro s hs
    have hext := extractJson_of_no_span hs
    exact ⟨hext,
      generateEmail_error_of_inner (emailInner_error_of_extract hext),
      generatePPC_error_of_inner (ppcInner_error_of_extract hext)⟩

/-- The PPC example from the spec: prose before a single JSON object. -/
def objPpc : List Char :=
  "\x7b\"headline\": \"Act Now\", \"description\": \"Big savings today\"\x7d".toList

def noJsonResponse : List Char := "Sorry, I cannot help with that.".toList

theorem c6_extraction_witness :
    extractJson ("Sure! ".toList ++ objPpc ++ []) =
      .ok (.obj [("headline", .str "Act Now"),
                 ("description", .str "Big savings today")]) ∧
    extractJson noJsonResponse = .error "No JSON found in AI response" :=
  ⟨c6_extraction.1 "Sure! ".toList objPpc []
      (.obj [("headline", .str "Act Now"), ("description", .str "Big savings today")])
      (by decide) (by decide) (by decide) (by decide) (by rfl),
   (c6_extraction.2 noJsonResponse
      (by
        intro h
        have h2 := jsonMatch_isSome_of_hasBraceSpan h
        rw [show jsonMatch noJsonResponse = none from by rfl] at h2
        exact Bool.noConfusion h2)).1⟩

/-! ## C7 -/

/-- C7, confirmed: for each channel, a parsed object whose required fields
are not all truthy fails that channel's generation; every generator error is
exactly the channel-specific message; and a generator success is exactly the
parsed (for social: rebuilt from the parsed) object with its required fields
truthy — never fallback content. -/
theorem c7_required_field_enforcement :
    (∀ s v, extractJson s = .ok v →
      (truthyField v "subject" = false ∨ truthyField v "body" = false) →
      generateEmailContent s = .error emailFailureMsg) ∧
    (∀ s e, generateEmailContent s = .error e → e = emailFailureMsg) ∧
    (∀ s v, generateEmailContent s = .ok v → extractJson s = .ok v ∧
      truthyField v "subject" = true ∧ truthyField v "body" = true) ∧
    (∀ s v, extractJson s = .ok v →
      (truthyField v "headline" = false ∨ truthyField v "description" = false) →
      generatePPCContent s = .error ppcFailureMsg) ∧
    (∀ s e, generatePPCContent s = .error e → e = ppcFailureMsg) ∧
    (∀ s v, generatePPCContent s = .ok v → extractJson s = .ok v ∧
      truthyField v "headline" = true ∧ truthyField v "description" = true) ∧
    (∀ s v, extractJson s = .ok v → truthyField v "body" = false →
      generateSMSContent s = .error smsFailureMsg) ∧
    (∀ s e, generateSMSContent s = .error e → e = smsFailureMsg) ∧
    (∀ s v, generateSMSContent s = .ok v → extractJson s = .ok v ∧
      truthyField v "body" = true) ∧
    (∀ p s v, extractJson s = .ok v → truthyField v "body" = false →
      generateSocialContent p s = .error socialFailureMsg) ∧
    (∀ p s e, generateSocialContent p s = .error e → e = socialFailureMsg) ∧
    (∀ p s v, generateSocialContent p s = .ok v →
      ∃ parsed, extractJson s = .ok parsed ∧ truthyField parsed "body" = true) :=
  ⟨fun _ _ hext hmiss =>
     generateEmail_error_of_inner (emailInner_error_of_fields hext hmiss),
   fun _ _ h => generateEmail_error_unique h,
   fun _ _ h => emailInner_ok_inv (generateEmail_ok_inv h),
   fun _ _ hext hmiss =>
     generatePPC_error_of_inner (ppcInner_error_of_fields hext hmiss),
   fun _ _ h => generatePPC_error_unique h,
   fun _ _ h => ppcInner_ok_inv (generatePPC_ok_inv h),
   fun _ _ hext hmiss =>
     generateSMS_error_of_inner (smsInner_error_of_fields hext hmiss),
   fun _ _ h => generateSMS_error_unique h,
   fun _ _ h => smsInner_ok_inv (generateSMS_ok_inv h),
   fun _ _ _ hext hmiss =>
     generateSocial_error_of_inner (socialInner_error_of_fields hext hmiss),
   fun _ _ _ h => generateSocial_error_unique h,
   fun _ _ _ h => socialInner_ok_inv (generateSocial_ok_inv h)⟩

/-- An email response whose object parses but lacks `subject`. -/
def emailNoSubject : List Char := "\x7b\"body\":\"Hello\"\x7d".toList

/-- A PPC response whose object parses but lacks `description`. -/
def ppcNoDescription : List Char := "\x7b\"headline\":\"Act Now\"\x7d".toList

theorem c7_required_field_enforcement_witness :
    generateEmailContent emailNoSubject = .error emailFailureMsg ∧
    generatePPCContent ppcNoDescription = .error ppcFailureMsg :=
  ⟨c7_required_field_enforcement.1 emailNoSubject (.obj [("body", .str "Hello")])
     (by rfl) (Or.inl (by rfl)),
   c7_required_field_enforcement.2.2.2.1 ppcNoDescription
     (.obj [("headline", .str "Act Now")]) (by rfl) (Or.inr (by rfl))⟩

/-! ## C10 -/

/-- C10, confirmed: the required-field check is a truthiness check — a
present-but-empty string field fails exactly like an absent one. -/
theorem c10_truthiness_check :
    (∀ s fs, extractJson s = .ok (.obj fs) →
      lookupField fs "subject" = some (.str "") →
      generateEmailContent s = .error emailFailureMsg) ∧
    (∀ s fs, extractJson s = .ok (.obj fs) →
      lookupField fs "subject" = none →
      generateEmailContent s = .error emailFailureMsg) ∧
    (∀ s fs, extractJson s = .ok (.obj fs) →
      lookupField fs "headline" = some (.str "") →
      generatePPCContent s = .error ppcFailureMsg) ∧
    (∀ s fs, extractJson s = .ok (.obj fs) →
      lookupField fs "headline" = none →
      generatePPCContent s = .error ppcFailureMsg) := by
  refine ⟨?_, ?_, ?_, ?_⟩ <;> intro s fs hext hfield
  · exact generateEmail_error_of_inner (emailInner_error_of_fields hext
      (Or.inl (by simp [truthyField, Json.getField, hfield, Json.truthy])))
  · exact generateEmail_error_of_inner (emailInner_error_of_fields hext
      (Or.inl (by simp [truthyField, Json.getField, hfield])))
  · exact generatePPC_error_of_inner (ppcInner_error_of_fields hext
      (Or.inl (by simp [truthyField, Json.getField, hfield, Json.truthy])))
  · exact generatePPC_error_of_inner (ppcInner_error_of_fields hext
      (Or.inl (by simp [truthyField, Json.getField, hfield])))

/-- An email response with `subject` present but empty. -/
def emailEmptySubject : List Char := "\x7b\"subject\":\"\",\"body\":\"Hello\"\x7d".toList

theorem c10_truthiness_check_witness :
    generateEmailContent emailEmptySubject = .error emailFailureMsg ∧
    generateEmailContent emailNoSubject = .error emailFailureMsg :=
  ⟨c10_truthiness_check.1 emailEmptySubject
     [("subject", .str ""), ("body", .str "Hello")] (by rfl) (by rfl),
   c10_truthiness_check.2.1 emailNoSubject [("body", .str "Hello")]
     (by rfl) (by rfl)⟩

/-! ## C8 -/

/-- C8, amended: the intent is parsed first; the user's raw prompt is
appended immediately after parsing, and exactly once, so every later
assistant append follows it — messages still appear in
user-then-assistant order. -/
theorem c8_message_order (gen : GenCall → Except String Json)
    (intent : CampaignIntent) (prompt : String) :
    ∃ rest, (orchestrate gen intent prompt).2 =
      .parseIntent :: .appendUserMessage prompt :: rest ∧
      ∀ m, Event.appendUserMessage m ∉ rest := by
  by_cases hnc : intent.needsClarification
  · refine ⟨[.appendAssistantMessage (generateResponse intent)], ?_, ?_⟩
    · simp [orchestrate, hnc]
    · intro m
      simp
  · by_cases hemp : (fanOut gen intent.channels).content.isEmpty
    · refine ⟨(fanOut gen intent.channels).events, ?_, ?_⟩
      · simp [orchestrate, hnc, hemp]
      · intro m hm
        obtain ⟨g, hg⟩ := fanOut_events_generatorCall gen intent.channels _ hm
        exact Event.noConfusion hg
    · refine ⟨(fanOut gen intent.channels).events ++
        [.createCampaign "ready",
         .appendAssistantMessage (readyMessage intent.channels)], ?_, ?_⟩
      · simp [orchestrate, hnc, hemp]
      · intro m hm
        rcases List.mem_append.mp hm with h | h
        · obtain ⟨g, hg⟩ := fanOut_events_generatorCall gen intent.channels _ h
          exact Event.noConfusion hg
        · simp at h

/-- C8, counterexample: the first step of the trace is the intent parse; the
user's raw prompt is appended only afterwards — refuting the claim that the
prompt is appended to the conversation before parsing. -/
theorem c8_counterexample :
    ((orchestrate genAllFail intentWithQs "hello").2).head? =
      some Event.parseIntent ∧
    Event.appendUserMessage "hello" ∈
      ((orchestrate genAllFail intentWithQs "hello").2).tail := by
  decide

/-! ## C9 -/

/-- C9, amended: the orchestrator creates a Campaign (always in status
`ready`) exactly when the aggregated content map is non-empty; the launch
handler rejects an already-launched campaign, fails without any update when
zero channels succeed, and otherwise moves the status to `launched` when
every launched channel succeeded and to `partially_launched` when only some
did.  (The `PATCH` update can still move a launched campaign back — see the
counterexample.) -/
theorem c9_lifecycle :
    (∀ gen intent prompt, intent.needsClarification = false →
      ((∃ content warnings msg, (orchestrate gen intent prompt).1 =
          .campaign content warnings msg) ↔
        (fanOut gen intent.channels).content ≠ []) ∧
      (∀ s, Event.createCampaign s ∈ (orchestrate gen intent prompt).2 →
        s = "ready")) ∧
    (∀ c req ok, c.status = "launched" →
      launch c req ok = .error "Campaign already launched") ∧
    (∀ c req ok, c.status ≠ "launched" →
      (List.range (req.getD c.channels).length).countP ok = 0 →
      launch c req ok = .error "Failed to launch campaign on any channel") ∧
    (∀ c req ok, c.status ≠ "launched" →
      (List.range (req.getD c.channels).length).countP ok ≠ 0 →
      (List.range (req.getD c.channels).length).countP ok =
        (req.getD c.channels).length →
      launch c req ok = .ok { c with status := "launched" }) ∧
    (∀ c req ok, c.status ≠ "launched" →
      (List.range (req.getD c.channels).length).countP ok ≠ 0 →
      (List.range (req.getD c.channels).length).countP ok ≠
        (req.getD c.channels).length →
      launch c req ok = .ok { c with status := "partially_launched" }) := by
  refine ⟨?_, ?_, ?_, ?_, ?_⟩
  · intro gen intent prompt hnc
    by_cases hemp : (fanOut gen intent.channels).content.isEmpty
    · constructor
      · constructor
        · rintro ⟨content, warnings, msg, hres⟩
          simp [orchestrate, hnc, hemp] at hres
        · intro hne
          exact absurd (List.isEmpty_iff.mp hemp) hne
      · intro s hs
        simp [orchestrate, hnc, hemp] at hs
        obtain ⟨g, hg⟩ := fanOut_events_generatorCall gen intent.channels _ hs
        exact Event.noConfusion hg
    · constructor
      · constructor
        · intro _
          intro hnil
          exact hemp (by simp [hnil])
        · intro _
          exact ⟨(fanOut gen intent.channels).content,
                 (fanOut gen intent.channels).errors,
                 readyMessage intent.channels, by simp [orchestrate, hnc, hemp]⟩
      · intro s hs
        simp [orchestrate, hnc, hemp] at hs
        rcases hs with hs | hs
        · obtain ⟨g, hg⟩ := fanOut_events_generatorCall gen intent.channels _ hs
          exact Event.noConfusion hg
        · exact hs
  · intro c req ok hst
    simp [launch, hst]
  · intro c req ok hst h0
    simp [launch, hst, h0]
  · intro c req ok hst h0 hall
    simp [launch, hst, h0, hall]
    intro hnil
    exact h0 (by rw [hnil]; rfl)
  · intro c req ok hst h0 hsome
    simp [launch, hst, h0, hsome]

def campaignReady : Campaign :=
  ⟨"grow", [.email, .sms], [("email", .str "x"), ("sms", .str "y")],
   ⟨none, none, none⟩, none, none, "ready"⟩

def campaignLaunched : Campaign :=
  ⟨"grow", [.email, .sms], [("email", .str "x"), ("sms", .str "y")],
   ⟨none, none, none⟩, none, none, "launched"⟩

/-- Launch outcome oracle: the first channel succeeds, the second fails. -/
def okFirstOnly : Nat → Bool := fun i => i = 0

theorem c9_lifecycle_witness :
    (∃ content warnings msg,
      (orchestrate genEmailFails intentEmailSms "p").1 =
        .campaign content warnings msg) ∧
    launch campaignLaunched none (fun _ => true) =
      .error "Campaign already launched" ∧
    launch campaignReady none (fun _ => false) =
      .error "Failed to launch campaign on any channel" ∧
    launch campaignReady none (fun _ => true) =
      .ok { campaignReady with status := "launched" } ∧
    launch campaignReady none okFirstOnly =
      .ok { campaignReady with status := "partially_launched" } :=
  ⟨((c9_lifecycle.1 genEmailFails intentEmailSms "p" rfl).1).mpr
     (by
       have hc : (fanOut genEmailFails intentEmailSms.channels).content =
           [("sms", Json.str "generated")] := rfl
       rw [hc]
       simp),
   c9_lifecycle.2.1 campaignLaunched none (fun _ => true) rfl,
   c9_lifecycle.2.2.1 campaignReady none (fun _ => false) (by decide) (by decide),
   c9_lifecycle.2.2.2.1 campaignReady none (fun _ => true) (by decide) (by decide)
     (by decide),
   c9_lifecycle.2.2.2.2 campaignReady none okFirstOnly (by decide) (by decide)
     (by decide)⟩

/-- C9, counterexample: the `PATCH` update accepts status `draft` on a
launched campaign and moves it back — refuting "no operation transitions a
launched campaign back". -/
theorem c9_counterexample :
    campaignLaunched.status = "launched" ∧
    validUpdates ⟨none, none, none, some "draft"⟩ = true ∧
    patchCampaign campaignLaunched ⟨none, none, none, some "draft"⟩ =
      some { campaignLaunched with status := "draft" } := by
  refine ⟨rfl, rfl, rfl⟩

end Copilot
